import Mathlib

/-!
# GramSetu orchestration core — verification development

Shallow embedding of the GramSetu repository: the mobile client
(`mobile-app/App.js`), the persisted schema (`infrastructure/postgres/init.sql`),
and the orchestration core described by the specification (job state machine,
task dispatcher, offline sync queue, audit/consent ledger, notification
dispatcher).  The orchestration-core services themselves are not present in the
repository source tree (only their schema, documentation and the mobile caller
are), so those definitions are modelled from the specification and are marked
as such in their doc comments.
-/

namespace GramSetu

/-- Job lifecycle statuses, §4.1 of the specification. -/
inductive Status
  | queued
  | transcribing
  | intent_extracted
  | awaiting_consent
  | verifying_documents
  | navigating_portal
  | solving_captcha
  | awaiting_confirmation
  | completed
  | failed
  | cancelled
  deriving DecidableEq, Repr, Fintype

/-- Terminal statuses: no further transitions permitted. -/
def Status.isTerminal : Status → Bool
  | .completed => true
  | .failed => true
  | .cancelled => true
  | _ => false

/-- The required-stage successor in the happy path
`queued → transcribing → … → completed`. -/
def nextStage : Status → Option Status
  | .queued => some .transcribing
  | .transcribing => some .intent_extracted
  | .intent_extracted => some .awaiting_consent
  | .awaiting_consent => some .verifying_documents
  | .verifying_documents => some .navigating_portal
  | .navigating_portal => some .solving_captcha
  | .solving_captcha => some .awaiting_confirmation
  | .awaiting_confirmation => some .completed
  | _ => none

/-- Edge set of the §4.1 transition graph: the happy-path successor edge,
plus `failed` and `cancelled` reachable from any non-terminal state. -/
def allowedTransition (s t : Status) : Bool :=
  nextStage s == some t
    || (!s.isTerminal && (t == Status.failed || t == Status.cancelled))

/-! ## Mobile client (src/mobile-app/App.js) -/

/-- The `voice_input` object built by `stopRecording` in App.js. -/
structure VoiceInput where
  audio_base64 : String
  vle_id : String
  language_hint : String
  deriving DecidableEq, Repr

/-- The JSON body `stopRecording` posts to `POST /jobs` in App.js. -/
structure JobRequest where
  vle_id : String
  citizen_name : String
  citizen_phone : String
  consent_recorded : Bool
  voice_input : VoiceInput
  deriving DecidableEq, Repr

/-- The request body constructed by `stopRecording` (App.js): every field
except the base64 audio is a hard-coded literal. -/
def stopRecordingPayload (base64Audio : String) : JobRequest :=
  { vle_id := "VLE001"
    citizen_name := "Unknown"
    citizen_phone := "+919876543210"
    consent_recorded := true
    voice_input :=
      { audio_base64 := base64Audio
        vle_id := "VLE001"
        language_hint := "hi" } }

/-- Outcome of one status query made by `pollJobStatus` (App.js): either the
`status` string from a successful `GET /jobs/{jobId}` response, or an axios
error caught by the `catch` branch. -/
inductive PollResponse
  | ok (status : String)
  | err
  deriving DecidableEq, Repr

/-- Whether one tick of the `setInterval` callback in `pollJobStatus` clears
the interval (App.js): it does so exactly when the response status string is
`"completed"` or `"failed"`, or when the query threw. -/
def pollTickStops : PollResponse → Bool
  | .ok s => s == "completed" || s == "failed"
  | .err => true

/-- The polling period passed to `setInterval` in `pollJobStatus` (App.js),
in milliseconds. -/
def pollIntervalMs : Nat := 2000

/-- Whether the polling loop is still running after `n` ticks, given the
stream of responses `resp` (the `k`-th tick observes `resp k`). -/
def stillPolling (resp : Nat → PollResponse) : Nat → Bool
  | 0 => true
  | n + 1 => stillPolling resp n && !pollTickStops (resp n)

/-! ## Orchestration core: data model

Modelled from the spec: the orchestrator / job-store services are absent from
the source tree; only their PostgreSQL schema (`init.sql`) and documentation
are present.  The record shapes below follow the `jobs`, `consent_records`
and `audit_logs` relations of `init.sql`; the operations follow §3–§4.1 of
the specification. -/

/-- A row of the `jobs` relation (`init.sql`), with the monotonically
increasing `version` required by §3 for optimistic concurrency. -/
structure Job where
  id : Nat
  vle_id : String
  citizen_name : String
  citizen_phone : String
  status : Status
  scheme : Option String
  version : Nat
  result_data : Option String
  deriving DecidableEq, Repr

/-- A row of the `consent_records` relation (`init.sql`). -/
structure ConsentRecord where
  job_id : Nat
  citizen_phone : String
  vle_id : String
  consent_text : String
  audio_hash : String
  scheme : Option String
  deriving DecidableEq, Repr

/-- The structured `event_data` payload of an audit entry: either a lifecycle
transition carrying the new status, or a consent event. -/
inductive AuditData
  | statusChange (s : Status)
  | consentRecorded
  deriving DecidableEq, Repr

/-- A row of the `audit_logs` relation (`init.sql`). -/
structure AuditLogEntry where
  job_id : Nat
  event_type : String
  event_data : AuditData
  service_name : String
  deriving DecidableEq, Repr

/-- The shared mutable state of the core: the Job Store and the append-only
Audit & Consent Ledger (§5: the only shared mutable resources). -/
structure SysState where
  jobs : List Job
  consents : List ConsentRecord
  auditLog : List AuditLogEntry
  nextId : Nat
  deriving DecidableEq, Repr

/-- The empty store before any submission. -/
def initState : SysState := { jobs := [], consents := [], auditLog := [], nextId := 0 }

/-- Error taxonomy of §7 (the variants the modelled operations raise). -/
inductive OrchError
  | ValidationError
  | ConsentMissingError
  | ConcurrentModificationError
  | DuplicateConsent
  | JobNotFound
  | InvalidTransition
  deriving DecidableEq, Repr

deriving instance DecidableEq for Except

/-- A job submission as accepted by the external interface (§6): agent id,
citizen name, citizen phone, consent flag, voice payload. -/
structure Submission where
  vle_id : String
  citizen_name : String
  citizen_phone : String
  consent_recorded : Bool
  audio_base64 : String
  language_hint : String
  deriving DecidableEq, Repr

/-- Synchronous validation (§7): a malformed submission — one with an empty
agent id, citizen name or citizen phone (NOT NULL columns of `jobs`) — is
rejected and no job is created. -/
def validSubmission (sub : Submission) : Bool :=
  !sub.vle_id.isEmpty && !sub.citizen_name.isEmpty && !sub.citizen_phone.isEmpty

/-- Look a job up by id in the Job Store. -/
def findJob (st : SysState) (jid : Nat) : Option Job :=
  st.jobs.find? (fun j => j.id == jid)

/-- Whether a ConsentRecord for the job exists in the ledger. -/
def hasConsent (st : SysState) (jid : Nat) : Bool :=
  st.consents.any (fun c => c.job_id == jid)

/-- The Job row created for a fresh submission: status `queued`, version 0. -/
def newJob (jid : Nat) (sub : Submission) : Job :=
  { id := jid
    vle_id := sub.vle_id
    citizen_name := sub.citizen_name
    citizen_phone := sub.citizen_phone
    status := .queued
    scheme := none
    version := 0
    result_data := none }

/-- The audit entry written when a job is created. -/
def creationEntry (jid : Nat) : AuditLogEntry :=
  { job_id := jid
    event_type := "job_created"
    event_data := .statusChange .queued
    service_name := "orchestrator" }

/-- The audit entry written when consent is recorded. -/
def consentEntry (jid : Nat) : AuditLogEntry :=
  { job_id := jid
    event_type := "consent_recorded"
    event_data := .consentRecorded
    service_name := "orchestrator" }

/-- The audit entry written for a status transition. -/
def transitionEntry (jid : Nat) (target : Status) : AuditLogEntry :=
  { job_id := jid
    event_type := "transition"
    event_data := .statusChange target
    service_name := "orchestrator" }

/-- The version-checked update applied to each stored row on a successful
transition: the row with the matching id gets the new status and an
optimistic version bump; every other row is untouched. -/
def bumpJob (jid : Nat) (target : Status) (j : Job) : Job :=
  if j.id == jid then { j with status := target, version := j.version + 1 } else j

/-- Modelled from the spec: job submission (§6).  Validates synchronously,
creates the Job with a fresh id, initial status `queued` and version 0, and
writes the creation audit entry; returns the job id. -/
def submitJob (st : SysState) (sub : Submission) : Except OrchError (Nat × SysState) :=
  if validSubmission sub then
    .ok (st.nextId, { st with
                        jobs := newJob st.nextId sub :: st.jobs
                        auditLog := st.auditLog ++ [creationEntry st.nextId]
                        nextId := st.nextId + 1 })
  else
    .error .ValidationError

/-- Modelled from the spec: `recordConsent` (§4.4).  Appends a ConsentRecord
for the job and a consent audit entry; fails with `DuplicateConsent` when an
active record already exists for the job. -/
def recordConsent (st : SysState) (c : ConsentRecord) : Except OrchError SysState :=
  match findJob st c.job_id with
  | none => .error .JobNotFound
  | some _ =>
    if hasConsent st c.job_id then
      .error .DuplicateConsent
    else
      .ok { st with
              consents := c :: st.consents
              auditLog := st.auditLog ++ [consentEntry c.job_id] }

/-- An event consumed by `advance` (§4.1): the outcome the Task Dispatcher reports for
the current stage of the job. -/
inductive Event
  | stageSucceeded
  | stageFailedPermanent
  deriving DecidableEq, Repr, Fintype

/-- The status an event drives the current status of the job to, per the
transition table of §4.1; `none` when the event is invalid for that status. -/
def eventTarget (s : Status) : Event → Option Status
  | .stageSucceeded => nextStage s
  | .stageFailedPermanent => if s.isTerminal then none else some .failed

/-- Modelled from the spec: `advance(job_id, expected_version, event)` (§4.1).
Validates the event against the transition table for the current
status of the job; blocks the consent-gated transition into `verifying_documents` until
a matching ConsentRecord exists; on a version mismatch fails with
`ConcurrentModificationError`; on success writes the new status with an
optimistic version bump and exactly one audit entry. -/
def advance (st : SysState) (jid : Nat) (expectedVersion : Nat) (ev : Event) :
    Except OrchError SysState :=
  match findJob st jid with
  | none => .error .JobNotFound
  | some job =>
    if job.version ≠ expectedVersion then
      .error .ConcurrentModificationError
    else
      match eventTarget job.status ev with
      | none => .error .InvalidTransition
      | some target =>
        if job.status == Status.awaiting_consent && target == Status.verifying_documents
            && !hasConsent st jid then
          .error .ConsentMissingError
        else
          .ok { st with
                  jobs := st.jobs.map (bumpJob jid target)
                  auditLog := st.auditLog ++ [transitionEntry jid target] }

/-- Modelled from the spec: `cancel(job_id)` (§4.1) — permitted from any
non-terminal state, marks the job `cancelled` and writes one audit entry. -/
def cancelJob (st : SysState) (jid : Nat) : Except OrchError SysState :=
  match findJob st jid with
  | none => .error .JobNotFound
  | some job =>
    if job.status.isTerminal then
      .error .InvalidTransition
    else
      .ok { st with
              jobs := st.jobs.map (bumpJob jid .cancelled)
              auditLog := st.auditLog ++ [transitionEntry jid .cancelled] }

/-- One operation of the orchestration core against the shared store. -/
inductive StepOp
  | submit (sub : Submission)
  | consent (c : ConsentRecord)
  | adv (jid expectedVersion : Nat) (ev : Event)
  | cancel (jid : Nat)
  deriving DecidableEq, Repr

/-- Apply one operation to the store (the id returned by submission is dropped). -/
def stepOp (st : SysState) : StepOp → Except OrchError SysState
  | .submit sub => (submitJob st sub).map (·.2)
  | .consent c => recordConsent st c
  | .adv jid v ev => advance st jid v ev
  | .cancel jid => cancelJob st jid

/-- States of the core reachable from the empty store by successful
operations. -/
inductive Reachable : SysState → Prop
  | init : Reachable initState
  | step (st : SysState) (op : StepOp) (st' : SysState) :
      Reachable st → stepOp st op = .ok st' → Reachable st'

/-- Apply `advance` and keep the previous state on any error: used to state
that a failed advance leaves the store unchanged. -/
def applyAdvance (st : SysState) (jid v : Nat) (ev : Event) : SysState :=
  match advance st jid v ev with
  | .ok st' => st'
  | .error _ => st

/-- The statuses that invoke the Portal Agent capability or lie beyond it:
`verifying_documents` and every later required stage. -/
def portalStage : Status → Bool
  | .verifying_documents => true
  | .navigating_portal => true
  | .solving_captcha => true
  | .awaiting_confirmation => true
  | .completed => true
  | _ => false

/-- The status an audit entry contributes to the status trace of job `jid`:
the new status for a lifecycle entry of that job, nothing otherwise. -/
def traceItem (jid : Nat) (e : AuditLogEntry) : Option Status :=
  if e.job_id == jid then
    match e.event_data with
    | .statusChange s => some s
    | .consentRecorded => none
  else none

/-- The sequence of statuses recorded in the audit log for job `jid`, in
commit order. -/
def statusTrace (st : SysState) (jid : Nat) : List Status :=
  st.auditLog.filterMap (traceItem jid)

/-- Whether every consecutive pair of a status sequence is an edge of the
§4.1 transition graph. -/
def isChain : List Status → Bool
  | [] => true
  | [_] => true
  | s :: t :: rest => allowedTransition s t && isChain (t :: rest)

/-- Run a list of operations from a state, `none` as soon as one fails. -/
def runOps : SysState → List StepOp → Option SysState
  | st, [] => some st
  | st, op :: rest =>
    match stepOp st op with
    | .ok st' => runOps st' rest
    | .error _ => none

/-! ## Task Dispatcher

Modelled from the spec (§4.2): the dispatcher service is absent from the
source tree; the retry policy values follow §4.2 and the tenacity
configuration documented in `docs/bhashini-integration.md`
(`stop_after_attempt(3)`, exponential wait between 2 and 10 seconds). -/

/-- Outcome classification of one collaborator call (§4.2). -/
inductive Outcome
  | success
  | transientFailure
  | permanentFailure
  deriving DecidableEq, Repr

/-- Status of a Task row (§3). -/
inductive TaskStatus
  | pending
  | succeeded
  | failedTransient
  | failedPermanent
  deriving DecidableEq, Repr

/-- A Task row: one dispatch attempt against a collaborator for one job
stage (§3), keyed by the deterministic idempotency key (job id, stage). -/
structure TaskRow where
  job_id : Nat
  stage : Status
  idempotency_key : Nat × Status
  attempt : Nat
  task_status : TaskStatus
  deriving DecidableEq, Repr

/-- Bounded attempt count of the retry policy (§4.2 / bhashini docs). -/
def retryBudget : Nat := 3

/-- Base delay of the exponential backoff, in seconds (§4.2). -/
def baseDelaySeconds : Nat := 2

/-- Cap of the exponential backoff, in seconds (§4.2). -/
def delayCapSeconds : Nat := 10

/-- Backoff delay before retrying attempt `attempt`, in seconds. -/
def backoffDelaySeconds (attempt : Nat) : Nat :=
  min (baseDelaySeconds * 2 ^ attempt) delayCapSeconds

/-- The Task row recorded for one attempt with its terminal mark. -/
def mkTask (jid : Nat) (stage : Status) (attempt : Nat) (s : TaskStatus) : TaskRow :=
  { job_id := jid
    stage := stage
    idempotency_key := (jid, stage)
    attempt := attempt
    task_status := s }

/-- Modelled from the spec: the retry loop of `dispatch` (§4.2).  `collab i`
is the outcome the collaborator returns for attempt `i`; each attempt is
recorded as a Task row; transient failures are retried while budget remains,
exhaustion of the budget escalates to a permanent failure. -/
def dispatchAux (collab : Nat → Outcome) (jid : Nat) (stage : Status) :
    Nat → Nat → List TaskRow × Outcome
  | 0, _ => ([], .permanentFailure)
  | budget + 1, i =>
    match collab i with
    | .success => ([mkTask jid stage i .succeeded], .success)
    | .permanentFailure => ([mkTask jid stage i .failedPermanent], .permanentFailure)
    | .transientFailure =>
      let rest := dispatchAux collab jid stage budget (i + 1)
      (mkTask jid stage i .failedTransient :: rest.1, rest.2)

/-- Modelled from the spec: `dispatch(job, stage)` (§4.2), returning the
recorded Task rows and the classified outcome. -/
def dispatch (collab : Nat → Outcome) (jid : Nat) (stage : Status) :
    List TaskRow × Outcome :=
  dispatchAux collab jid stage retryBudget 0

/-- The Task rows of a run that fails transiently on attempts `i` to
`i + k - 1` and succeeds on attempt `i + k`: one row per attempt, only the
last marked succeeded. -/
def expectedRows (jid : Nat) (stage : Status) : Nat → Nat → List TaskRow
  | i, 0 => [mkTask jid stage i .succeeded]
  | i, k + 1 => mkTask jid stage i .failedTransient :: expectedRows jid stage (i + 1) k

/-! ## Offline Sync Queue

Modelled from the spec (§4.3): the edge sync service is absent from the
source tree.  Each local operation carries a client-generated idempotency
token; the central store remembers processed tokens so a repeated `sync`
creates no duplicate effect. -/

/-- A local operation buffered at the edge, carrying its idempotency token. -/
structure LocalOp where
  token : Nat
  sub : Submission
  deriving DecidableEq, Repr

/-- The central store as seen by the sync queue: processed idempotency
tokens and the effects (one per accepted operation). -/
structure CentralStore where
  processedTokens : List Nat
  effects : List (Nat × Submission)
  deriving DecidableEq, Repr

/-- The central store before any sync. -/
def emptyCentral : CentralStore := { processedTokens := [], effects := [] }

/-- Modelled from the spec: pushing one local operation to the central store
(§4.3): an operation whose token was already processed is skipped; otherwise
its effect is applied and the token recorded. -/
def applyLocalOp (c : CentralStore) (op : LocalOp) : CentralStore :=
  if c.processedTokens.contains op.token then c
  else
    { processedTokens := op.token :: c.processedTokens
      effects := (op.token, op.sub) :: c.effects }

/-- Modelled from the spec: `sync()` (§4.3) pushes the unsynced local
operations to the central store in log order. -/
def sync (queue : List LocalOp) (c : CentralStore) : CentralStore :=
  queue.foldl applyLocalOp c

/-- `n` repeated invocations of `sync` over the same local queue. -/
def syncN : Nat → List LocalOp → CentralStore → CentralStore
  | 0, _, c => c
  | n + 1, q, c => syncN n q (sync q c)

/-- How many central-store effects carry idempotency token `t`. -/
def effectCount (c : CentralStore) (t : Nat) : Nat :=
  c.effects.countP (fun e => e.1 == t)

/-! ## Notification Dispatcher

Modelled from the spec (§4.5): the notification service is absent from the
source tree.  The per-job `notification_sent` flag is written atomically with
the terminal transition and deduplicates re-triggering on replay/resume. -/

/-- The notification-relevant slice of a job: its status and the per-job
`notification_sent` flag. -/
structure NotifJob where
  status : Status
  notification_sent : Bool
  deriving DecidableEq, Repr

/-- Modelled from the spec: committing a terminal transition (§4.5): the
terminal status and the `notification_sent` flag are written atomically, and
`notify` is triggered (the returned count) unless the flag was already set. -/
def commitTerminal (j : NotifJob) (t : Status) : NotifJob × Nat :=
  ({ status := t, notification_sent := true }, if j.notification_sent then 0 else 1)

/-- Modelled from the spec: one replay/resume pass of the Orchestrator over a
job (§4.5): it re-triggers `notify` only for a terminal job whose
`notification_sent` flag is not set. -/
def resumeNotify (j : NotifJob) : NotifJob × Nat :=
  if j.status.isTerminal && !j.notification_sent then
    ({ j with notification_sent := true }, 1)
  else (j, 0)

/-- `n` replay/resume passes, accumulating the number of notify triggers. -/
def resumeNotifyN : Nat → NotifJob → NotifJob × Nat
  | 0, j => (j, 0)
  | n + 1, j =>
    let r := resumeNotify j
    let rest := resumeNotifyN n r.1
    (rest.1, r.2 + rest.2)

/-! ## Concrete demonstration data -/

/-- A concrete valid submission. -/
def demoSub : Submission :=
  { vle_id := "VLE001"
    citizen_name := "Ramesh Kumar"
    citizen_phone := "+919876543210"
    consent_recorded := true
    audio_base64 := "YXVkaW8="
    language_hint := "hi" }

/-- A concrete local operation with idempotency token 42. -/
def demoLocalOp : LocalOp := { token := 42, sub := demoSub }

/-- A concrete consent record for job 0. -/
def demoConsent : ConsentRecord :=
  { job_id := 0
    citizen_phone := "+919876543210"
    vle_id := "VLE001"
    consent_text := "verbal consent recorded"
    audio_hash := "deadbeef"
    scheme := some "pm-kisan" }

/-- The store after submitting `demoSub` to the empty store. -/
def st1 : SysState :=
  { jobs := [newJob 0 demoSub]
    consents := []
    auditLog := [creationEntry 0]
    nextId := 1 }

/-- The store after one further successful advance of job 0. -/
def st2 : SysState :=
  match stepOp st1 (.adv 0 0 .stageSucceeded) with
  | .ok st' => st'
  | .error _ => st1

/-- Operations driving job 0 from submission up to `verifying_documents`. -/
def demoOps : List StepOp :=
  [.submit demoSub, .consent demoConsent,
   .adv 0 0 .stageSucceeded, .adv 0 1 .stageSucceeded,
   .adv 0 2 .stageSucceeded, .adv 0 3 .stageSucceeded]

/-- The store after running `demoOps` from the empty store: job 0 sits at
`verifying_documents` with a consent record present. -/
def demoPortalState : SysState := (runOps initState demoOps).getD initState

/-- The row of job 0 in `demoPortalState`. -/
def demoPortalJob : Job := (findJob demoPortalState 0).getD (newJob 0 demoSub)

/-- The inductive invariant carrying the audit-trace claim: job ids and audit
references stay below the id counter, and the status trace of every stored
job starts at `queued`, ends at the current status of the job, and follows
the edges of the §4.1 transition graph. -/
def TraceInv (st : SysState) : Prop :=
  (∀ j ∈ st.jobs, j.id < st.nextId) ∧
  (∀ e ∈ st.auditLog, e.job_id < st.nextId) ∧
  (∀ j ∈ st.jobs,
    (statusTrace st j.id).head? = some Status.queued ∧
    (statusTrace st j.id).getLast? = some j.status ∧
    isChain (statusTrace st j.id) = true)

/-! ## Mobile-client claims -/

/-- C9: every job submission issued by the stopRecording handler of the mobile
client sends `consent_recorded = true` with the fixed identifiers
`vle_id = "VLE001"`, `citizen_phone = "+919876543210"` and
`citizen_name = "Unknown"`, for every recording: only the base64 audio varies
with the input, so the consent flag is independent of any consent actually
captured from the citizen. -/
theorem stopRecording_sends_fixed_consent (audio : String) :
    (stopRecordingPayload audio).consent_recorded = true ∧
    (stopRecordingPayload audio).vle_id = "VLE001" ∧
    (stopRecordingPayload audio).citizen_phone = "+919876543210" ∧
    (stopRecordingPayload audio).citizen_name = "Unknown" ∧
    (stopRecordingPayload audio).voice_input.audio_base64 = audio ∧
    (stopRecordingPayload audio).voice_input.vle_id = "VLE001" ∧
    (stopRecordingPayload audio).voice_input.language_hint = "hi" :=
  ⟨rfl, rfl, rfl, rfl, rfl, rfl, rfl⟩

/-- C10: one tick of the pollJobStatus loop clears its interval exactly when
the returned status string is completed or failed, or when the query errors;
the interval is 2000 milliseconds; and against a stream of responses that
always answers with the terminal status cancelled, the loop is still polling
after every number of ticks, so polling is not guaranteed to terminate for
jobs that end in cancelled. -/
theorem pollJobStatus_stop_condition (resp : Nat → PollResponse)
    (hcancel : ∀ k, resp k = PollResponse.ok "cancelled") :
    (∀ s, pollTickStops (PollResponse.ok s) = true ↔ (s = "completed" ∨ s = "failed")) ∧
    pollTickStops PollResponse.err = true ∧
    pollIntervalMs = 2000 ∧
    ∀ n, stillPolling resp n = true := by
  refine ⟨?_, rfl, rfl, ?_⟩
  · intro s
    simp [pollTickStops]
  · intro n
    induction n with
    | zero => rfl
    | succ n ih => simp [stillPolling, ih, hcancel n, pollTickStops]

/-- Concrete run of the C10 theorem: against the constant cancelled stream the
loop is still polling after 5 ticks. -/
theorem pollJobStatus_stop_condition_witness :
    stillPolling (fun _ => PollResponse.ok "cancelled") 5 = true :=
  (pollJobStatus_stop_condition (fun _ => PollResponse.ok "cancelled")
    (fun _ => rfl)).2.2.2 5

/-! ## Characterization of the successful operations -/

theorem submitJob_ok {st : SysState} {sub : Submission} {jid : Nat} {st' : SysState}
    (h : submitJob st sub = .ok (jid, st')) :
    validSubmission sub = true ∧ jid = st.nextId ∧
    st' = { st with
              jobs := newJob st.nextId sub :: st.jobs
              auditLog := st.auditLog ++ [creationEntry st.nextId]
              nextId := st.nextId + 1 } := by
  unfold submitJob at h
  split at h
  · simp only [Except.ok.injEq, Prod.mk.injEq] at h
    exact ⟨by assumption, h.1.symm, h.2.symm⟩
  · exact absurd h (by simp)

theorem recordConsent_ok {st : SysState} {c : ConsentRecord} {st' : SysState}
    (h : recordConsent st c = .ok st') :
    ∃ j, findJob st c.job_id = some j ∧ hasConsent st c.job_id = false ∧
      st' = { st with
                consents := c :: st.consents
                auditLog := st.auditLog ++ [consentEntry c.job_id] } := by
  unfold recordConsent at h
  split at h
  · exact absurd h (by simp)
  next j hj =>
    split at h
    · exact absurd h (by simp)
    next hcon =>
      simp only [Except.ok.injEq] at h
      exact ⟨j, hj, by simpa using hcon, h.symm⟩

theorem advance_ok {st : SysState} {jid v : Nat} {ev : Event} {st' : SysState}
    (h : advance st jid v ev = .ok st') :
    ∃ job target, findJob st jid = some job ∧ job.version = v ∧
      eventTarget job.status ev = some target ∧
      (job.status == Status.awaiting_consent && target == Status.verifying_documents
          && !hasConsent st jid) = false ∧
      st' = { st with
                jobs := st.jobs.map (bumpJob jid target)
                auditLog := st.auditLog ++ [transitionEntry jid target] } := by
  unfold advance at h
  split at h
  · exact absurd h (by simp)
  next job hjob =>
    split at h
    · exact absurd h (by simp)
    next hver =>
      split at h
      · exact absurd h (by simp)
      next target htarget =>
        split at h
        · exact absurd h (by simp)
        next hgate =>
          simp only [Except.ok.injEq] at h
          exact ⟨job, target, hjob, by omega, htarget, by simpa using hgate, h.symm⟩

theorem cancelJob_ok {st : SysState} {jid : Nat} {st' : SysState}
    (h : cancelJob st jid = .ok st') :
    ∃ job, findJob st jid = some job ∧ job.status.isTerminal = false ∧
      st' = { st with
                jobs := st.jobs.map (bumpJob jid .cancelled)
                auditLog := st.auditLog ++ [transitionEntry jid .cancelled] } := by
  unfold cancelJob at h
  split at h
  · exact absurd h (by simp)
  next job hjob =>
    split at h
    · exact absurd h (by simp)
    next hterm =>
      simp only [Except.ok.injEq] at h
      exact ⟨job, hjob, by simpa using hterm, h.symm⟩

theorem stepOp_submit_ok {st : SysState} {sub : Submission} {st' : SysState}
    (h : stepOp st (.submit sub) = .ok st') : submitJob st sub = .ok (st.nextId, st') := by
  simp only [stepOp] at h
  cases hs : submitJob st sub with
  | error e => rw [hs] at h; exact absurd h (by simp [Except.map])
  | ok p =>
    obtain ⟨jid, stx⟩ := p
    rw [hs] at h
    simp only [Except.map, Except.ok.injEq] at h
    have h2 := (submitJob_ok hs).2.1
    rw [h2, h]

/-! ## Finite facts about the transition graph -/

theorem eventTarget_allowed :
    ∀ (s t : Status) (ev : Event), eventTarget s ev = some t →
      allowedTransition s t = true := by decide

theorem cancelled_allowed :
    ∀ s : Status, s.isTerminal = false → allowedTransition s Status.cancelled = true := by
  decide

theorem eventTarget_portal :
    ∀ (s t : Status) (ev : Event), eventTarget s ev = some t → portalStage t = true →
      (s = Status.awaiting_consent ∧ t = Status.verifying_documents)
        ∨ portalStage s = true := by decide

theorem queued_not_portal : portalStage Status.queued = false := rfl

theorem cancelled_not_portal : portalStage Status.cancelled = false := rfl

/-! ## Structural lemmas -/

theorem bumpJob_id (jid : Nat) (target : Status) (j : Job) :
    (bumpJob jid target j).id = j.id := by
  unfold bumpJob
  split <;> rfl

theorem bumpJob_pos {jid : Nat} {j : Job} (target : Status) (h : (j.id == jid) = true) :
    bumpJob jid target j = { j with status := target, version := j.version + 1 } := by
  simp [bumpJob, h]

theorem bumpJob_neg {jid : Nat} {j : Job} (target : Status) (h : (j.id == jid) = false) :
    bumpJob jid target j = j := by
  simp [bumpJob, h]

theorem findJob_mem {st : SysState} {jid : Nat} {j : Job} (h : findJob st jid = some j) :
    j ∈ st.jobs :=
  List.mem_of_find?_eq_some h

theorem findJob_id {st : SysState} {jid : Nat} {j : Job} (h : findJob st jid = some j) :
    j.id = jid := by
  have := List.find?_some h
  simpa using this

theorem find?_map_bumpJob (l : List Job) (jid qid : Nat) (target : Status) :
    (l.map (bumpJob jid target)).find? (fun j => j.id == qid)
      = (l.find? (fun j => j.id == qid)).map (bumpJob jid target) := by
  induction l with
  | nil => rfl
  | cons a rest ih =>
    cases h : (a.id == qid) with
    | true =>
      have hb : ((bumpJob jid target a).id == qid) = true := by rw [bumpJob_id]; exact h
      simp [List.find?_cons, h, hb]
    | false =>
      have hb : ((bumpJob jid target a).id == qid) = false := by rw [bumpJob_id]; exact h
      simp [List.find?_cons, h, hb, ih]

theorem hasConsent_jobsLog (st : SysState) (jobs : List Job)
    (log : List AuditLogEntry) (jid : Nat) :
    hasConsent { st with jobs := jobs, auditLog := log } jid = hasConsent st jid := rfl

theorem hasConsent_submitShape (st : SysState) (jobs : List Job)
    (log : List AuditLogEntry) (n : Nat) (jid : Nat) :
    hasConsent { st with jobs := jobs, auditLog := log, nextId := n } jid
      = hasConsent st jid := rfl

theorem hasConsent_consShape (st : SysState) (c : ConsentRecord)
    (log : List AuditLogEntry) (jid : Nat) :
    hasConsent { st with consents := c :: st.consents, auditLog := log } jid
      = ((c.job_id == jid) || hasConsent st jid) := by
  simp [hasConsent]

theorem reachable_runOps (st : SysState) (ops : List StepOp) (st' : SysState)
    (h : Reachable st) (hrun : runOps st ops = some st') : Reachable st' := by
  induction ops generalizing st with
  | nil =>
    simp only [runOps, Option.some.injEq] at hrun
    exact hrun ▸ h
  | cons op rest ih =>
    simp only [runOps] at hrun
    split at hrun
    next st2 hst2 => exact ih st2 (Reachable.step st op st2 h hst2) hrun
    next => exact absurd hrun (by simp)

/-! ## Trace and chain lemmas -/

theorem traceItem_creation_eq (jid : Nat) :
    traceItem jid (creationEntry jid) = some Status.queued := by
  simp [traceItem, creationEntry]

theorem traceItem_creation_ne {nid jid : Nat} (h : nid ≠ jid) :
    traceItem jid (creationEntry nid) = none := by
  simp [traceItem, creationEntry, h]

theorem traceItem_consent (jid x : Nat) : traceItem jid (consentEntry x) = none := by
  unfold traceItem consentEntry
  split <;> rfl

theorem traceItem_transition_eq (jid : Nat) (t : Status) :
    traceItem jid (transitionEntry jid t) = some t := by
  simp [traceItem, transitionEntry]

theorem traceItem_transition_ne {x jid : Nat} (t : Status) (h : x ≠ jid) :
    traceItem jid (transitionEntry x t) = none := by
  simp [traceItem, transitionEntry, h]

theorem filterMap_singleton (f : AuditLogEntry → Option Status) (e : AuditLogEntry) :
    List.filterMap f [e] = (f e).toList := by
  cases h : f e <;> simp [List.filterMap_cons, h]

theorem statusTrace_submitShape (st : SysState) (jobs : List Job) (n jid : Nat)
    (e : AuditLogEntry) :
    statusTrace { st with jobs := jobs, auditLog := st.auditLog ++ [e], nextId := n } jid
      = statusTrace st jid ++ (traceItem jid e).toList := by
  simp [statusTrace, List.filterMap_append, filterMap_singleton]

theorem statusTrace_consShape (st : SysState) (cs : List ConsentRecord) (jid : Nat)
    (e : AuditLogEntry) :
    statusTrace { st with consents := cs, auditLog := st.auditLog ++ [e] } jid
      = statusTrace st jid ++ (traceItem jid e).toList := by
  simp [statusTrace, List.filterMap_append, filterMap_singleton]

theorem statusTrace_jobsShape (st : SysState) (jobs : List Job) (jid : Nat)
    (e : AuditLogEntry) :
    statusTrace { st with jobs := jobs, auditLog := st.auditLog ++ [e] } jid
      = statusTrace st jid ++ (traceItem jid e).toList := by
  simp [statusTrace, List.filterMap_append, filterMap_singleton]

theorem filterMap_traceItem_nil (jid : Nat) : ∀ (l : List AuditLogEntry),
    (∀ e ∈ l, e.job_id ≠ jid) → List.filterMap (traceItem jid) l = []
  | [], _ => rfl
  | e :: rest, h => by
    have hne : e.job_id ≠ jid := h e (List.mem_cons_self e rest)
    have he : traceItem jid e = none := by simp [traceItem, hne]
    simp only [List.filterMap_cons, he]
    exact filterMap_traceItem_nil jid rest (fun x hx => h x (List.mem_cons_of_mem e hx))

theorem statusTrace_fresh (st : SysState) (jid : Nat)
    (h : ∀ e ∈ st.auditLog, e.job_id ≠ jid) : statusTrace st jid = [] :=
  filterMap_traceItem_nil jid st.auditLog h

theorem head?_append_of_some {l : List Status} {a : Status} (l' : List Status)
    (h : l.head? = some a) : (l ++ l').head? = some a := by
  cases l with
  | nil => simp at h
  | cons x xs => simpa using h

theorem isChain_append_single : ∀ (l : List Status) (s t : Status),
    isChain l = true → l.getLast? = some s → allowedTransition s t = true →
    isChain (l ++ [t]) = true
  | [], s, t, _, hl, _ => by simp at hl
  | [a], s, t, _, hl, ht => by
    simp only [List.getLast?_singleton, Option.some.injEq] at hl
    subst hl
    simpa [isChain] using ht
  | a :: b :: rest, s, t, hc, hl, ht => by
    simp only [isChain, Bool.and_eq_true] at hc
    have hl' : (b :: rest).getLast? = some s := by
      simpa [List.getLast?_cons_cons] using hl
    have hrec := isChain_append_single (b :: rest) s t hc.2 hl' ht
    simp only [List.cons_append, isChain, Bool.and_eq_true]
    exact ⟨hc.1, by simpa using hrec⟩

/-! ## C1: the consent gate -/

/-- C1: in every reachable store, every job whose status invokes the Portal
Agent capability — `verifying_documents` or any later stage — has a matching
ConsentRecord; since consent records are never removed and the gate blocks
the transition into `verifying_documents` without one, no reachable
execution brings a job to such a status without a prior ConsentRecord. -/
theorem consent_before_portal_stages (st : SysState) (h : Reachable st) :
    ∀ j ∈ st.jobs, portalStage j.status = true → hasConsent st j.id = true := by
  induction h with
  | init => intro j hj; simp [initState] at hj
  | step st op st' hst hok ih =>
    intro j hj hp
    cases op with
    | submit sub =>
      obtain ⟨-, -, hstEq⟩ := submitJob_ok (stepOp_submit_ok hok)
      subst hstEq
      rw [hasConsent_submitShape]
      simp only [List.mem_cons] at hj
      rcases hj with rfl | hj
      · exact absurd hp (by simp [newJob, portalStage])
      · exact ih j hj hp
    | consent c =>
      have hok' : recordConsent st c = .ok st' := hok
      obtain ⟨jc, hjc, hnc, hstEq⟩ := recordConsent_ok hok'
      subst hstEq
      rw [hasConsent_consShape]
      have := ih j hj hp
      simp [this]
    | adv jid v ev =>
      have hok' : advance st jid v ev = .ok st' := hok
      obtain ⟨job, target, hjob, hver, htarget, hgate, hstEq⟩ := advance_ok hok'
      subst hstEq
      rw [hasConsent_jobsLog]
      simp only [List.mem_map] at hj
      obtain ⟨j0, hj0, rfl⟩ := hj
      rw [bumpJob_id]
      cases hid : (j0.id == jid) with
      | false =>
        rw [bumpJob_neg target hid] at hp
        exact ih j0 hj0 hp
      | true =>
        have hid' : j0.id = jid := by simpa using hid
        rw [bumpJob_pos target hid] at hp
        have hp' : portalStage target = true := hp
        rcases eventTarget_portal job.status target ev htarget hp' with ⟨hsac, htvd⟩ | hps
        · -- the gate was checked on this very transition
          rw [hsac, htvd] at hgate
          simp only [beq_self_eq_true, Bool.true_and, Bool.not_eq_eq_eq_not] at hgate
          rw [hid']
          simpa using hgate
        · -- the job was already past the gate
          have hmem := findJob_mem hjob
          have hjid := findJob_id hjob
          have := ih job hmem hps
          rw [hid', ← hjid]
          exact this
    | cancel jid =>
      have hok' : cancelJob st jid = .ok st' := hok
      obtain ⟨job, hjob, hterm, hstEq⟩ := cancelJob_ok hok'
      subst hstEq
      rw [hasConsent_jobsLog]
      simp only [List.mem_map] at hj
      obtain ⟨j0, hj0, rfl⟩ := hj
      rw [bumpJob_id]
      cases hid : (j0.id == jid) with
      | false =>
        rw [bumpJob_neg Status.cancelled hid] at hp
        exact ih j0 hj0 hp
      | true =>
        rw [bumpJob_pos Status.cancelled hid] at hp
        exact absurd hp (by simp [portalStage])

/-- Concrete run of the C1 theorem: after driving job 0 to
`verifying_documents` via `demoOps`, its consent record is present. -/
theorem consent_before_portal_stages_witness : hasConsent demoPortalState 0 = true := by
  have hrun : runOps initState demoOps = some demoPortalState := by decide
  have hreach := reachable_runOps initState demoOps demoPortalState Reachable.init hrun
  have hmem : demoPortalJob ∈ demoPortalState.jobs := by decide
  have hps : portalStage demoPortalJob.status = true := by decide
  exact consent_before_portal_stages demoPortalState hreach demoPortalJob hmem hps

/-! ## C2: the audit trace is a path of the transition graph -/

theorem traceInv_reachable (st : SysState) (h : Reachable st) : TraceInv st := by
  induction h with
  | init =>
    refine ⟨?_, ?_, ?_⟩ <;> intro x hx <;> simp [initState] at hx
  | step st op st' hst hok ih =>
    obtain ⟨I1, I2, I3⟩ := ih
    cases op with
    | submit sub =>
      obtain ⟨-, -, hstEq⟩ := submitJob_ok (stepOp_submit_ok hok)
      subst hstEq
      refine ⟨?_, ?_, ?_⟩
      · intro j hj
        simp only [List.mem_cons] at hj
        rcases hj with rfl | hj
        · simp [newJob]
        · have := I1 j hj
          simp only []
          omega
      · intro e he
        simp only [List.mem_append, List.mem_singleton] at he
        rcases he with he | rfl
        · have := I2 e he
          simp only []
          omega
        · simp [creationEntry]
      · intro j hj
        rw [statusTrace_submitShape]
        simp only [List.mem_cons] at hj
        rcases hj with rfl | hj
        · have hid : (newJob st.nextId sub).id = st.nextId := rfl
          rw [hid, traceItem_creation_eq]
          have hfresh : statusTrace st st.nextId = [] :=
            statusTrace_fresh st st.nextId (fun e he => Nat.ne_of_lt (I2 e he))
          rw [hfresh]
          exact ⟨rfl, rfl, rfl⟩
        · have hlt := I1 j hj
          rw [traceItem_creation_ne (Nat.ne_of_gt hlt)]
          simpa using I3 j hj
    | consent c =>
      have hok' : recordConsent st c = .ok st' := hok
      obtain ⟨jc, hjc, -, hstEq⟩ := recordConsent_ok hok'
      subst hstEq
      refine ⟨?_, ?_, ?_⟩
      · intro j hj
        exact I1 j hj
      · intro e he
        simp only [List.mem_append, List.mem_singleton] at he
        rcases he with he | rfl
        · exact I2 e he
        · have := I1 jc (findJob_mem hjc)
          have hid := findJob_id hjc
          simp [consentEntry, ← hid, this]
      · intro j hj
        rw [statusTrace_consShape, traceItem_consent]
        simpa using I3 j hj
    | adv jid v ev =>
      have hok' : advance st jid v ev = .ok st' := hok
      obtain ⟨job, target, hjob, hver, htarget, hgate, hstEq⟩ := advance_ok hok'
      have hjid := findJob_id hjob
      have hjmem := findJob_mem hjob
      subst hstEq
      refine ⟨?_, ?_, ?_⟩
      · intro j hj
        simp only [List.mem_map] at hj
        obtain ⟨j0, hj0, rfl⟩ := hj
        rw [bumpJob_id]
        exact I1 j0 hj0
      · intro e he
        simp only [List.mem_append, List.mem_singleton] at he
        rcases he with he | rfl
        · exact I2 e he
        · have := I1 job hjmem
          simp [transitionEntry, ← hjid, this]
      · intro j hj
        simp only [List.mem_map] at hj
        obtain ⟨j0, hj0, rfl⟩ := hj
        rw [statusTrace_jobsShape, bumpJob_id]
        cases hid : (j0.id == jid) with
        | false =>
          have hne : jid ≠ j0.id := by
            intro hh
            rw [hh] at hid
            simp at hid
          rw [traceItem_transition_ne target hne, bumpJob_neg target hid]
          simpa using I3 j0 hj0
        | true =>
          have hid' : j0.id = jid := by simpa using hid
          rw [hid', traceItem_transition_eq, bumpJob_pos target hid]
          obtain ⟨hhead, hlast, hchain⟩ := I3 j0 hj0
          rw [hid'] at hhead hlast hchain
          have hjoblast := (I3 job hjmem).2.1
          rw [hjid] at hjoblast
          have hsame : j0.status = job.status := by
            rw [hlast] at hjoblast
            exact Option.some.inj hjoblast
          have hallow : allowedTransition j0.status target = true := by
            rw [hsame]
            exact eventTarget_allowed job.status target ev htarget
          refine ⟨head?_append_of_some _ hhead, ?_, ?_⟩
          · simp [List.getLast?_concat]
          · exact isChain_append_single _ j0.status target hchain hlast hallow
    | cancel jid =>
      have hok' : cancelJob st jid = .ok st' := hok
      obtain ⟨job, hjob, hterm, hstEq⟩ := cancelJob_ok hok'
      have hjid := findJob_id hjob
      have hjmem := findJob_mem hjob
      subst hstEq
      refine ⟨?_, ?_, ?_⟩
      · intro j hj
        simp only [List.mem_map] at hj
        obtain ⟨j0, hj0, rfl⟩ := hj
        rw [bumpJob_id]
        exact I1 j0 hj0
      · intro e he
        simp only [List.mem_append, List.mem_singleton] at he
        rcases he with he | rfl
        · exact I2 e he
        · have := I1 job hjmem
          simp [transitionEntry, ← hjid, this]
      · intro j hj
        simp only [List.mem_map] at hj
        obtain ⟨j0, hj0, rfl⟩ := hj
        rw [statusTrace_jobsShape, bumpJob_id]
        cases hid : (j0.id == jid) with
        | false =>
          have hne : jid ≠ j0.id := by
            intro hh
            rw [hh] at hid
            simp at hid
          rw [traceItem_transition_ne Status.cancelled hne, bumpJob_neg Status.cancelled hid]
          simpa using I3 j0 hj0
        | true =>
          have hid' : j0.id = jid := by simpa using hid
          rw [hid', traceItem_transition_eq, bumpJob_pos Status.cancelled hid]
          obtain ⟨hhead, hlast, hchain⟩ := I3 j0 hj0
          rw [hid'] at hhead hlast hchain
          have hjoblast := (I3 job hjmem).2.1
          rw [hjid] at hjoblast
          have hsame : j0.status = job.status := by
            rw [hlast] at hjoblast
            exact Option.some.inj hjoblast
          have hallow : allowedTransition j0.status Status.cancelled = true := by
            rw [hsame]
            exact cancelled_allowed job.status hterm
          refine ⟨head?_append_of_some _ hhead, ?_, ?_⟩
          · simp [List.getLast?_concat]
          · exact isChain_append_single _ j0.status Status.cancelled hchain hlast hallow

/-- C2: in every reachable store, the sequence of statuses a job takes, as
observed in the audit log, starts at `queued` and follows only edges of the
§4.1 transition graph (the happy-path successor edges, plus `failed` and
`cancelled` from any non-terminal state); every recorded status is a value
of the `Status` enumeration, so no status outside that set occurs and no
required intermediate stage is skipped. -/
theorem audit_trace_valid_path (st : SysState) (h : Reachable st) :
    ∀ j ∈ st.jobs, (statusTrace st j.id).head? = some Status.queued ∧
      isChain (statusTrace st j.id) = true := by
  intro j hj
  obtain ⟨-, -, I3⟩ := traceInv_reachable st h
  exact ⟨(I3 j hj).1, (I3 j hj).2.2⟩

/-- Concrete run of the C2 theorem: the audit trace of job 0 after `demoOps`
starts at `queued` and is a chain of transition-graph edges. -/
theorem audit_trace_valid_path_witness :
    (statusTrace demoPortalState 0).head? = some Status.queued ∧
      isChain (statusTrace demoPortalState 0) = true := by
  have hrun : runOps initState demoOps = some demoPortalState := by decide
  have hreach := reachable_runOps initState demoOps demoPortalState Reachable.init hrun
  have hmem : demoPortalJob ∈ demoPortalState.jobs := by decide
  exact audit_trace_valid_path demoPortalState hreach demoPortalJob hmem

/-- C3: audit log entries are append-only — every operation of the core that
succeeds leaves all previously written audit rows unchanged, extending the
log only at the end (and a failed operation returns an error without
producing a new store at all). -/
theorem audit_log_append_only (st : SysState) (op : StepOp) (st' : SysState)
    (h : stepOp st op = .ok st') :
    ∃ tail, st'.auditLog = st.auditLog ++ tail := by
  cases op with
  | submit sub =>
    obtain ⟨-, -, rfl⟩ := submitJob_ok (stepOp_submit_ok h)
    exact ⟨[creationEntry st.nextId], rfl⟩
  | consent c =>
    have h' : recordConsent st c = .ok st' := h
    obtain ⟨j, -, -, rfl⟩ := recordConsent_ok h'
    exact ⟨[consentEntry c.job_id], rfl⟩
  | adv jid v ev =>
    have h' : advance st jid v ev = .ok st' := h
    obtain ⟨job, target, -, -, -, -, rfl⟩ := advance_ok h'
    exact ⟨[transitionEntry jid target], rfl⟩
  | cancel jid =>
    have h' : cancelJob st jid = .ok st' := h
    obtain ⟨job, -, -, rfl⟩ := cancelJob_ok h'
    exact ⟨[transitionEntry jid .cancelled], rfl⟩

/-- Concrete run of the C3 theorem: submitting `demoSub` to the empty store
extends the audit log by a tail only. -/
theorem audit_log_append_only_witness :
    ∃ tail, st1.auditLog = initState.auditLog ++ tail :=
  audit_log_append_only initState (.submit demoSub) st1 (by decide)

/-- C4: `advance` called with an expected version that does not match the
current version of the job fails with `ConcurrentModificationError` and
leaves the store unchanged; and after an `advance` carrying the current
version succeeds, a second `advance` carrying that same starting version
receives `ConcurrentModificationError` — of two calls with the same starting
version, exactly one succeeds. -/
theorem advance_optimistic_concurrency (st st' : SysState) (jid v : Nat)
    (ev ev' : Event) (j : Job)
    (hfind : findJob st jid = some j) (hv : j.version = v)
    (hok : advance st jid v ev = .ok st') :
    (∀ w, w ≠ v →
      advance st jid w ev' = .error OrchError.ConcurrentModificationError ∧
      applyAdvance st jid w ev' = st) ∧
    advance st' jid v ev' = .error OrchError.ConcurrentModificationError := by
  constructor
  · intro w hw
    have hvw : j.version ≠ w := by omega
    have herr : advance st jid w ev' = .error OrchError.ConcurrentModificationError := by
      unfold advance
      rw [hfind]
      simp [hvw]
    refine ⟨herr, ?_⟩
    unfold applyAdvance
    rw [herr]
  · obtain ⟨job, target, hjob, hver, -, -, hstEq⟩ := advance_ok hok
    have hjj : job = j := by
      rw [hfind] at hjob
      exact (Option.some.inj hjob).symm
    subst hstEq
    have hfind' : findJob
        { st with jobs := st.jobs.map (bumpJob jid target),
                  auditLog := st.auditLog ++ [transitionEntry jid target] } jid
        = some (bumpJob jid target j) := by
      unfold findJob
      simp only []
      rw [find?_map_bumpJob]
      unfold findJob at hfind
      rw [hfind]
      rfl
    have hbid : (j.id == jid) = true := by simp [findJob_id hfind]
    have hbv : (bumpJob jid target j).version = v + 1 := by
      rw [bumpJob_pos target hbid]
      simp [hv]
    unfold advance
    rw [hfind']
    simp [hbv]

/-- Concrete run of the C4 theorem: with job 0 of `st1` at version 0, an
advance carrying version 1 is rejected and changes nothing, and after the
successful advance to `st2` a second advance carrying version 0 is
rejected. -/
theorem advance_optimistic_concurrency_witness :
    (advance st1 0 1 Event.stageSucceeded
        = .error OrchError.ConcurrentModificationError ∧
      applyAdvance st1 0 1 Event.stageSucceeded = st1) ∧
    advance st2 0 0 Event.stageSucceeded
        = .error OrchError.ConcurrentModificationError := by
  have h := advance_optimistic_concurrency st1 st2 0 0 Event.stageSucceeded
    Event.stageSucceeded (newJob 0 demoSub) (by decide) rfl (by decide)
  exact ⟨h.1 1 (by decide), h.2⟩

/-- C5: every valid submission returns the fresh job id together with a store
in which the created job has initial status `queued` (and version 0). -/
theorem submit_initial_status_queued (st : SysState) (sub : Submission)
    (hv : validSubmission sub = true) :
    ∃ st', submitJob st sub = .ok (st.nextId, st') ∧
      findJob st' st.nextId = some (newJob st.nextId sub) ∧
      (newJob st.nextId sub).status = Status.queued ∧
      (newJob st.nextId sub).version = 0 := by
  have hsub : submitJob st sub = .ok (st.nextId,
      { st with
          jobs := newJob st.nextId sub :: st.jobs
          auditLog := st.auditLog ++ [creationEntry st.nextId]
          nextId := st.nextId + 1 }) := by
    unfold submitJob
    simp [hv]
  refine ⟨_, hsub, ?_, rfl, rfl⟩
  unfold findJob
  have : ((newJob st.nextId sub).id == st.nextId) = true := by simp [newJob]
  simp [this]

/-- Concrete run of the C5 theorem: submitting `demoSub` to the empty store
returns job id 0 with status `queued`. -/
theorem submit_initial_status_queued_witness :
    ∃ st', submitJob initState demoSub = .ok (0, st') ∧
      findJob st' 0 = some (newJob 0 demoSub) ∧
      (newJob 0 demoSub).status = Status.queued ∧
      (newJob 0 demoSub).version = 0 :=
  submit_initial_status_queued initState demoSub (by decide)

/-! ## C6: bounded retry of transient failures -/

theorem dispatchAux_spec (collab : Nat → Outcome) (jid : Nat) (stage : Status) :
    ∀ (k b i : Nat), k < b →
      (∀ d, d < k → collab (i + d) = Outcome.transientFailure) →
      collab (i + k) = Outcome.success →
      dispatchAux collab jid stage b i = (expectedRows jid stage i k, Outcome.success)
  | 0, b, i, hk, _, hs => by
    obtain ⟨b', rfl⟩ : ∃ b', b = b' + 1 := ⟨b - 1, by omega⟩
    have hs' : collab i = Outcome.success := by simpa using hs
    simp [dispatchAux, hs', expectedRows]
  | k + 1, b, i, hk, ht, hs => by
    obtain ⟨b', rfl⟩ : ∃ b', b = b' + 1 := ⟨b - 1, by omega⟩
    have h0 : collab i = Outcome.transientFailure := by simpa using ht 0 (by omega)
    have hrec := dispatchAux_spec collab jid stage k b' (i + 1) (by omega)
      (fun d hd => by
        have := ht (d + 1) (by omega)
        rwa [show i + (d + 1) = i + 1 + d by omega] at this)
      (by rwa [show i + 1 + k = i + (k + 1) by omega])
    simp [dispatchAux, h0, hrec, expectedRows]

theorem expectedRows_length (jid : Nat) (stage : Status) :
    ∀ (k i : Nat), (expectedRows jid stage i k).length = k + 1
  | 0, _ => rfl
  | k + 1, i => by
    simp [expectedRows, expectedRows_length jid stage k (i + 1)]

theorem expectedRows_filter (jid : Nat) (stage : Status) :
    ∀ (k i : Nat),
      (expectedRows jid stage i k).filter (fun r => r.task_status == TaskStatus.succeeded)
        = [mkTask jid stage (i + k) TaskStatus.succeeded]
  | 0, i => by simp [expectedRows, List.filter, mkTask]
  | k + 1, i => by
    have hrec := expectedRows_filter jid stage k (i + 1)
    rw [show i + 1 + k = i + (k + 1) by omega] at hrec
    simp only [expectedRows, List.filter_cons]
    simpa [mkTask] using hrec

/-- C6: when the collaborator bound to a stage fails transiently `k` times
with `k` below the retry budget of 3 (base delay 2 s, cap 10 s) and then
succeeds, `dispatch` yields a single success outcome for the stage, records
one Task row per attempt (`k + 1` rows), and only the last attempt is marked
succeeded. -/
theorem dispatch_retry_then_single_success (collab : Nat → Outcome) (jid : Nat)
    (stage : Status) (k : Nat) (hk : k < retryBudget)
    (ht : ∀ d, d < k → collab d = Outcome.transientFailure)
    (hs : collab k = Outcome.success) :
    dispatch collab jid stage = (expectedRows jid stage 0 k, Outcome.success) ∧
    (dispatch collab jid stage).1.length = k + 1 ∧
    (dispatch collab jid stage).1.filter (fun r => r.task_status == TaskStatus.succeeded)
      = [mkTask jid stage k TaskStatus.succeeded] := by
  have hmain : dispatchAux collab jid stage retryBudget 0
      = (expectedRows jid stage 0 k, Outcome.success) :=
    dispatchAux_spec collab jid stage k retryBudget 0 hk
      (fun d hd => by simpa using ht d hd) (by simpa using hs)
  have hdisp : dispatch collab jid stage = (expectedRows jid stage 0 k, Outcome.success) :=
    hmain
  refine ⟨hdisp, ?_, ?_⟩
  · rw [hdisp]
    exact expectedRows_length jid stage k 0
  · rw [hdisp]
    simpa using expectedRows_filter jid stage k 0

/-- Concrete run of the C6 theorem: two transient timeouts then success on
the third attempt, within the retry budget 3. -/
theorem dispatch_retry_then_single_success_witness :
    dispatch (fun i => if i < 2 then Outcome.transientFailure else Outcome.success) 7
        Status.navigating_portal
      = (expectedRows 7 Status.navigating_portal 0 2, Outcome.success) ∧
    (dispatch (fun i => if i < 2 then Outcome.transientFailure else Outcome.success) 7
        Status.navigating_portal).1.length = 2 + 1 ∧
    (dispatch (fun i => if i < 2 then Outcome.transientFailure else Outcome.success) 7
        Status.navigating_portal).1.filter
          (fun r => r.task_status == TaskStatus.succeeded)
      = [mkTask 7 Status.navigating_portal 2 TaskStatus.succeeded] :=
  dispatch_retry_then_single_success
    (fun i => if i < 2 then Outcome.transientFailure else Outcome.success) 7
    Status.navigating_portal 2 (by decide)
    (fun d hd => by simp [hd]) (by decide)

/-! ## C7: idempotent offline sync -/

theorem applyLocalOp_processed_mono (c : CentralStore) (op : LocalOp) (t : Nat)
    (h : c.processedTokens.contains t = true) :
    (applyLocalOp c op).processedTokens.contains t = true := by
  unfold applyLocalOp
  split
  · exact h
  · simpa using Or.inr h

theorem sync_processed_mono (q : List LocalOp) (c : CentralStore) (t : Nat)
    (h : c.processedTokens.contains t = true) :
    (sync q c).processedTokens.contains t = true := by
  induction q generalizing c with
  | nil => exact h
  | cons a rest ih => exact ih (applyLocalOp c a) (applyLocalOp_processed_mono c a t h)

theorem applyLocalOp_self_processed (c : CentralStore) (op : LocalOp) :
    (applyLocalOp c op).processedTokens.contains op.token = true := by
  unfold applyLocalOp
  split
  next h => exact h
  next => simp

theorem token_processed_after_sync : ∀ (q : List LocalOp) (c : CentralStore) (op : LocalOp),
    op ∈ q → (sync q c).processedTokens.contains op.token = true
  | [], _, op, hop => by simp at hop
  | a :: rest, c, op, hop => by
    rcases List.mem_cons.mp hop with rfl | hop'
    · exact sync_processed_mono rest (applyLocalOp c op) op.token
        (applyLocalOp_self_processed c op)
    · exact token_processed_after_sync rest (applyLocalOp c a) op hop'

theorem applyLocalOp_noop (c : CentralStore) (op : LocalOp)
    (h : c.processedTokens.contains op.token = true) : applyLocalOp c op = c := by
  have hmem : op.token ∈ c.processedTokens := by simpa using h
  unfold applyLocalOp
  simp [hmem]

theorem sync_noop (q : List LocalOp) (c : CentralStore)
    (h : ∀ op ∈ q, c.processedTokens.contains op.token = true) : sync q c = c := by
  induction q with
  | nil => rfl
  | cons a rest ih =>
    show sync rest (applyLocalOp c a) = c
    rw [applyLocalOp_noop c a (h a (List.mem_cons_self a rest))]
    exact ih (fun op hop => h op (List.mem_cons_of_mem a hop))

theorem sync_idem (q : List LocalOp) (c : CentralStore) : sync q (sync q c) = sync q c :=
  sync_noop q (sync q c) (fun op hop => token_processed_after_sync q c op hop)

theorem syncN_collapse (n : Nat) (q : List LocalOp) (c : CentralStore) :
    syncN (n + 1) q c = sync q c := by
  induction n generalizing c with
  | zero => rfl
  | succ n ih =>
    show syncN (n + 1) q (sync q c) = sync q c
    rw [ih (sync q c), sync_idem]

theorem applyLocalOp_effectCount (c : CentralStore) (op : LocalOp) (t : Nat)
    (h : effectCount c t = if c.processedTokens.contains t = true then 1 else 0) :
    effectCount (applyLocalOp c op) t
      = if (applyLocalOp c op).processedTokens.contains t = true then 1 else 0 := by
  have h' : List.countP (fun e => e.1 == t) c.effects
      = if t ∈ c.processedTokens then 1 else 0 := by simpa [effectCount] using h
  unfold applyLocalOp
  split
  next hc => simpa [effectCount] using h'
  next hc =>
    have hcm : op.token ∉ c.processedTokens := by
      intro hm
      exact hc (by simpa using hm)
    by_cases hts : op.token = t
    · subst hts
      simp [effectCount, List.countP_cons, h', hcm]
    · have hbt : ((op.token : Nat) == t) = false := by simpa using hts
      simp [effectCount, List.countP_cons, hbt, h', hts, Ne.symm hts]

theorem sync_effectCount (q : List LocalOp) (c : CentralStore) (t : Nat)
    (h : effectCount c t = if c.processedTokens.contains t = true then 1 else 0) :
    effectCount (sync q c) t
      = if (sync q c).processedTokens.contains t = true then 1 else 0 := by
  induction q generalizing c with
  | nil => exact h
  | cons a rest ih => exact ih (applyLocalOp c a) (applyLocalOp_effectCount c a t h)

/-- C7: `sync` is idempotent over the enqueued edge-side operations — a
repeated sync is a no-op — and an operation enqueued while offline produces
exactly one corresponding central-store effect no matter how many times
`sync` is invoked, because its client-generated idempotency token is
remembered. -/
theorem sync_idempotent_exactly_once (q : List LocalOp) (c : CentralStore)
    (op : LocalOp) (hop : op ∈ q) (n : Nat) :
    sync q (sync q c) = sync q c ∧
    effectCount (syncN (n + 1) q emptyCentral) op.token = 1 := by
  refine ⟨sync_idem q c, ?_⟩
  rw [syncN_collapse]
  have hbase : effectCount emptyCentral op.token
      = if emptyCentral.processedTokens.contains op.token = true then 1 else 0 := rfl
  have h1 := sync_effectCount q emptyCentral op.token hbase
  rw [token_processed_after_sync q emptyCentral op hop] at h1
  simpa using h1

/-- Concrete run of the C7 theorem: one enqueued operation, three syncs, one
effect. -/
theorem sync_idempotent_exactly_once_witness :
    sync [demoLocalOp] (sync [demoLocalOp] emptyCentral)
      = sync [demoLocalOp] emptyCentral ∧
    effectCount (syncN 3 [demoLocalOp] emptyCentral) 42 = 1 :=
  sync_idempotent_exactly_once [demoLocalOp] emptyCentral demoLocalOp
    (List.mem_cons_self demoLocalOp []) 2

/-! ## C8: notification triggered exactly once per terminal transition -/

theorem resumeNotifyN_flagged (n : Nat) (j : NotifJob) (h : j.notification_sent = true) :
    resumeNotifyN n j = (j, 0) := by
  induction n with
  | zero => rfl
  | succ n ih =>
    have hres : resumeNotify j = (j, 0) := by
      unfold resumeNotify
      simp [h]
    simp [resumeNotifyN, hres, ih]

/-- C8: committing a terminal transition for a job whose `notification_sent`
flag is unset triggers `notify` exactly once and sets the flag atomically
with the transition; any number of subsequent replay/resume passes triggers
nothing further, and a replay pass over any job whose flag is set never
re-triggers notification. -/
theorem notify_exactly_once_per_terminal (j : NotifJob) (t : Status) (n : Nat)
    (j' : NotifJob) (ht : t.isTerminal = true) (hj : j.notification_sent = false)
    (hj' : j'.notification_sent = true) :
    (commitTerminal j t).2 = 1 ∧
    (commitTerminal j t).1.status.isTerminal = true ∧
    (commitTerminal j t).1.notification_sent = true ∧
    (commitTerminal j t).2 + (resumeNotifyN n (commitTerminal j t).1).2 = 1 ∧
    (resumeNotifyN n j').2 = 0 := by
  refine ⟨by simp [commitTerminal, hj], ht, rfl, ?_, ?_⟩
  · have hset : (commitTerminal j t).1.notification_sent = true := rfl
    rw [resumeNotifyN_flagged n _ hset]
    simp [commitTerminal, hj]
  · rw [resumeNotifyN_flagged n j' hj']

/-- Concrete run of the C8 theorem: a failed terminal transition notifies
once; four replays add nothing; a flagged job is never re-notified. -/
theorem notify_exactly_once_per_terminal_witness :
    (commitTerminal ⟨Status.navigating_portal, false⟩ Status.failed).2 = 1 ∧
    (commitTerminal ⟨Status.navigating_portal, false⟩ Status.failed).1.status.isTerminal
      = true ∧
    (commitTerminal ⟨Status.navigating_portal, false⟩ Status.failed).1.notification_sent
      = true ∧
    (commitTerminal ⟨Status.navigating_portal, false⟩ Status.failed).2
        + (resumeNotifyN 4
            (commitTerminal ⟨Status.navigating_portal, false⟩ Status.failed).1).2 = 1 ∧
    (resumeNotifyN 4 (⟨Status.completed, true⟩ : NotifJob)).2 = 0 :=
  notify_exactly_once_per_terminal ⟨Status.navigating_portal, false⟩ Status.failed 4
    ⟨Status.completed, true⟩ (by decide) rfl rfl

end GramSetu
